import Mathlib

/-!
Verification of the tplinker CLI (`src/main.rs`) against its design
specification.  The Rust source is shallowly embedded: pure functions become
Lean functions, the network is an explicit environment of oracles, JSON
values are an inductive type, and panics (`unwrap`/`expect`) are modelled by
`Option`/`Except` results.
-/

set_option linter.unusedVariables false

/-! ## JSON values (serde_json `Value`) -/

/-- serde_json `Value`: null, booleans, numbers, strings, arrays, objects.
The numbers appearing in this program are integral, so `Int` suffices. -/
inductive Value where
  | null
  | bool (b : Bool)
  | num (n : Int)
  | str (s : String)
  | arr (vs : List Value)
  | obj (fs : List (String × Value))

/-- Rust `str::starts_with`, modelled on the character list of the string. -/
def startsWithM (s p : String) : Bool :=
  List.isPrefixOf p.data s.data

/-- One character of serde_json string escaping (quotes and backslashes;
the strings in this program contain no control characters). -/
def jsonEscapeChar (c : Char) : String :=
  if c = '"' then "\\\"" else if c = '\\' then "\\\\" else String.singleton c

/-- serde_json rendering of a string literal, quotes included. -/
def jsonEscape (s : String) : String :=
  "\"" ++ String.join (s.data.map jsonEscapeChar) ++ "\""

mutual

/-- serde_json `to_string`: compact JSON serialization of a `Value`. -/
def jsonStr : Value → String
  | .null => "null"
  | .bool b => toString b
  | .num n => toString n
  | .str s => jsonEscape s
  | .arr vs => "[" ++ String.intercalate "," (jsonStrList vs) ++ "]"
  | .obj fs => "\x7b" ++ String.intercalate "," (jsonStrFields fs) ++ "\x7d"

def jsonStrList : List Value → List String
  | [] => []
  | v :: vs => jsonStr v :: jsonStrList vs

def jsonStrFields : List (String × Value) → List String
  | [] => []
  | (k, v) :: fs => (jsonEscape k ++ ":" ++ jsonStr v) :: jsonStrFields fs

end

mutual

/-- `human_stringify` from `main.rs`: renders a JSON value for a table cell.
`Null` becomes the filler `"-"`; arrays are comma-and-space joined; objects
fall back to their compact JSON serialization. -/
def human_stringify : Value → String
  | .null => "-"
  | .bool b => toString b
  | .num n => toString n
  | .str s => s
  | .arr vs => String.intercalate ", " (human_stringify_list vs)
  | .obj fs => jsonStr (.obj fs)

def human_stringify_list : List Value → List String
  | [] => []
  | v :: vs => human_stringify v :: human_stringify_list vs

end

/-- `pad` from `main.rs`: right-pads `value` with spaces up to `padding`
columns; `saturating_sub` means a too-long value is returned unpadded,
never truncated. -/
def pad (value : String) (padding : Nat) : String :=
  value ++ String.mk (List.replicate (padding - value.length) ' ')

/-! ## The tabular renderer (`Format::output`, short/long modes)

The source accumulates a `HashMap<String, (usize, usize)>` mapping a column
label to its first-seen index and running maximum value width, and a
`Vec<HashMap<String, String>>` of rendered rows, then sorts the map's
entries by the first-seen index.  The map is embedded as an association
list kept in insertion order (entry orders are assigned `0, 1, 2, …` in
insertion order, so sorting by order recovers exactly this list); the later
explicit `sortByOrder` pass mirrors the source's sort of the map's
arbitrarily-ordered entries. -/

/-- The per-label registry payload: first-seen index and running max width. -/
structure FieldInfo where
  order : Nat
  width : Nat
deriving DecidableEq

/-- `fields.entry(k).and_modify(max width).or_insert((fields.len(), hlen))`
from `Format::output`: an existing label keeps its order and takes the max
width; a new label is appended with order `fields.length`. -/
def registerField (fields : List (String × FieldInfo)) (k : String) (hlen : Nat) :
    List (String × FieldInfo) :=
  if fields.any (fun p => p.1 == k) then
    fields.map (fun p =>
      if p.1 == k then (p.1, ⟨p.2.order, max p.2.width hlen⟩) else p)
  else
    fields ++ [(k, ⟨fields.length, hlen⟩)]

/-- `proc.insert(k, h)` on the per-row `HashMap<String, String>`: replaces
the value of an existing key, otherwise appends the pair. -/
def procInsert (proc : List (String × String)) (k h : String) :
    List (String × String) :=
  if proc.any (fun p => p.1 == k) then
    proc.map (fun p => if p.1 == k then (p.1, h) else p)
  else
    proc ++ [(k, h)]

/-- `HashMap::get` on the embedded per-row map. -/
def lookupA (proc : List (String × String)) (k : String) : Option String :=
  match proc with
  | [] => none
  | (a, b) :: rest => if a == k then some b else lookupA rest k

/-- Shape analysis of one element of a row, following `Format::output`:
a non-array field panics (`none`); an array field of length ≠ 2 is silently
skipped (`some none`); a 2-element array panics unless its key is a string,
and otherwise yields the key and the rendered value (`some (some _)`). -/
def fieldEntry : Value → Option (Option (String × String))
  | .arr [k, v] =>
    match k with
    | .str s => some (some (s, human_stringify v))
    | _ => none
  | .arr _ => some none
  | _ => none

/-- The inner field loop of `Format::output`: threads the label registry and
the current row's rendered map through the row's fields; `none` is a panic. -/
def processFields (fields : List (String × FieldInfo)) (proc : List (String × String)) :
    List Value → Option (List (String × FieldInfo) × List (String × String))
  | [] => some (fields, proc)
  | f :: fs =>
    match fieldEntry f with
    | none => none
    | some none => processFields fields proc fs
    | some (some (k, h)) =>
      processFields (registerField fields k h.length) (procInsert proc k h) fs

/-- The outer row loop of `Format::output`: each row must be an array
(else panic), its fields are folded into the registry, and its rendered
map is pushed in row order. -/
def collectRows (fields : List (String × FieldInfo)) :
    List Value → Option (List (String × FieldInfo) × List (List (String × String)))
  | [] => some (fields, [])
  | row :: rest =>
    match row with
    | .arr arr =>
      match processFields fields [] arr with
      | none => none
      | some (fields1, proc) =>
        match collectRows fields1 rest with
        | none => none
        | some (fields2, procs) => some (fields2, proc :: procs)
    | _ => none

/-- Schema collection over a whole row collection, starting empty. -/
def collectFields (rows : List Value) :
    Option (List (String × FieldInfo) × List (List (String × String))) :=
  collectRows [] rows

/-- Insertion step of the sort on registry entries by first-seen order. -/
def insertByOrder (x : String × FieldInfo) :
    List (String × FieldInfo) → List (String × FieldInfo)
  | [] => [x]
  | y :: ys => if x.2.order ≤ y.2.order then x :: y :: ys else y :: insertByOrder x ys

/-- `fields.sort_unstable_by(order)` from `Format::output`, as an insertion
sort on the embedded registry (the orders are pairwise distinct, so any
sorting algorithm yields the same list). -/
def sortByOrder : List (String × FieldInfo) → List (String × FieldInfo)
  | [] => []
  | x :: xs => insertByOrder x (sortByOrder xs)

/-- `"-".repeat(width)` for the separator line. -/
def dashes (n : Nat) : String :=
  String.mk (List.replicate n '-')

/-- One data line's cells: each column looks its label up in the row's map
and `unwrap`s (`none` = panic on a missing label), then pads to the width. -/
def renderCells (proc : List (String × String)) :
    List (String × FieldInfo) → Option (List String)
  | [] => some []
  | (name, fi) :: rest =>
    match lookupA proc name with
    | none => none
    | some v =>
      match renderCells proc rest with
      | none => none
      | some cs => some (pad v fi.width :: cs)

/-- All data lines of the table, in row order. -/
def renderLines (fields : List (String × FieldInfo)) :
    List (List (String × String)) → Option (List String)
  | [] => some []
  | proc :: ps =>
    match renderCells proc fields with
    | none => none
    | some cells =>
      match renderLines fields ps with
      | none => none
      | some ls => some ((" " ++ String.intercalate " | " cells ++ " ") :: ls)

/-- The short/long arm of `Format::output`: schema collection, sort by
first-seen order, then header, dash separator, and one line per row,
joined by newlines.  `none` models a panic inside the renderer. -/
def outputTable (rows : List Value) : Option String :=
  match collectFields rows with
  | none => none
  | some (fields, procs) =>
    let fs := sortByOrder fields
    let header := " " ++ String.intercalate " | " (fs.map (fun p => pad p.1 p.2.width)) ++ " "
    let sep := "-" ++ String.intercalate "-+-" (fs.map (fun p => dashes p.2.width)) ++ "-"
    match renderLines fs procs with
    | none => none
    | some lines => some (String.intercalate "\n" (header :: sep :: lines))

/-! ## Specification-side descriptions of the renderer

These definitions follow the wording of the specification ("strict
first-occurrence order of labels scanning rows in collection order") and
are compared with the embedded renderer above. -/

/-- The labels contributed by one row, in field order: the keys of the
2-element array fields whose key is a string. -/
def fieldLabel (f : Value) : Option String :=
  match f with
  | .arr [k, v] => match k with | .str s => some s | _ => none
  | _ => none

/-- The labels contributed by one row, in field order. -/
def rowLabels (row : Value) : List String :=
  match row with
  | .arr fields => fields.filterMap fieldLabel
  | _ => []

/-- All labels of a row collection, scanning rows and fields in order. -/
def extractLabels (rows : List Value) : List String :=
  (rows.map rowLabels).flatten

/-- First-occurrence deduplication relative to a set of already-seen labels. -/
def dedupFirstAux (seen : List String) : List String → List String
  | [] => []
  | x :: xs =>
    if x ∈ seen then dedupFirstAux seen xs
    else x :: dedupFirstAux (seen ++ [x]) xs

/-- Strict first-occurrence order of a label sequence. -/
def dedupFirst (l : List String) : List String :=
  dedupFirstAux [] l

/-- The width the renderer assigns to the column `label` of a row
collection (`none` when collection panics or the label never occurs). -/
def columnWidth (rows : List Value) (label : String) : Option Nat :=
  match collectFields rows with
  | none => none
  | some (fields, _) =>
    match fields.find? (fun p => p.1 == label) with
    | none => none
    | some p => some p.2.width

/-- The emitted column widths of a row collection, in display order. -/
def collectWidths (rows : List Value) : Option (List Nat) :=
  match collectFields rows with
  | none => none
  | some (fields, _) => some ((sortByOrder fields).map (fun p => p.2.width))

/-- The emitted column labels of a row collection, in display order. -/
def collectLabels (rows : List Value) : Option (List String) :=
  match collectFields rows with
  | none => none
  | some (fields, _) => some ((sortByOrder fields).map (fun p => p.1))

/-! ## Endpoints, devices and the network environment

Network interactions (`RawDevice::sysinfo`, the typed devices' `sysinfo`,
`is_on`, `location`, `reboot_with_delay`'s wire command) are external
collaborators; they are embedded as an explicit environment of oracles,
one outcome per endpoint (and per resolved kind where relevant). -/

/-- `std::net::SocketAddr`, reduced to the parts the program observes:
its serde/Display rendering `host:port`. -/
structure SockAddr where
  host : String
  port : Nat
deriving DecidableEq

/-- The `Display`/serde rendering of a socket address. -/
def SockAddr.render (a : SockAddr) : String :=
  a.host ++ ":" ++ toString a.port

/-- The fields of `tplinker::datatypes::SysInfo` that `main.rs` reads. -/
structure SysInfo where
  «alias» : String
  dev_name : String
  model : String
  mac : String
  hw_type : String
  sw_ver : String
  rssi : Int
  active_mode : String
deriving DecidableEq

/-- The closed set of device kinds of `tplinker::devices::Device`. -/
inductive DeviceKind where
  | HS100
  | HS110
  | LB110
  | Unknown
deriving DecidableEq

/-- Modelled from the spec: the library's error type (absent from `src/`)
distinguishes network/protocol failures from capability
(unsupported-operation) failures; the program only ever displays it. -/
inductive TpErr where
  | network (msg : String)
  | capability (msg : String)
deriving DecidableEq

/-- The `Display` rendering of a library error. -/
def errMsg : TpErr → String
  | .network m => m
  | .capability m => m

/-- The network as an oracle: the outcome of every wire interaction the
program can attempt, per endpoint. -/
structure Env where
  rawSysinfo : SockAddr → Except TpErr SysInfo
  typedSysinfo : SockAddr → DeviceKind → Except TpErr SysInfo
  isOn : SockAddr → DeviceKind → Except TpErr Bool
  location : SockAddr → DeviceKind → Except TpErr (Int × Int)
  reboot : SockAddr → DeviceKind → Nat → Except TpErr Unit

/-- `device_from_addr` from `main.rs`: probe the raw device for `SysInfo`;
match the reported model against the prefixes `HS100`, `HS110`, `LB110` in
that order, first match wins; a recognized kind re-queries `sysinfo`
through the typed handle and returns that second result; otherwise the
`Unknown` handle is returned with the original probe's `SysInfo`. -/
def device_from_addr (env : Env) (addr : SockAddr) :
    Except TpErr (SockAddr × DeviceKind × SysInfo) :=
  match env.rawSysinfo addr with
  | .error e => .error e
  | .ok info =>
    if startsWithM info.model "HS100" then
      match env.typedSysinfo addr .HS100 with
      | .error e => .error e
      | .ok info2 => .ok (addr, .HS100, info2)
    else if startsWithM info.model "HS110" then
      match env.typedSysinfo addr .HS110 with
      | .error e => .error e
      | .ok info2 => .ok (addr, .HS110, info2)
    else if startsWithM info.model "LB110" then
      match env.typedSysinfo addr .LB110 with
      | .error e => .error e
      | .ok info2 => .ok (addr, .LB110, info2)
    else
      .ok (addr, .Unknown, info)

/-- `device_is_on` from `main.rs`: the three recognized kinds issue an
`is_on` query and discard the error (`.ok()`); `Unknown` is `None`
without any query (hence no dependence on the environment). -/
def device_is_on (env : Env) (addr : SockAddr) : DeviceKind → Option Bool
  | .HS100 => (env.isOn addr .HS100).toOption
  | .HS110 => (env.isOn addr .HS110).toOption
  | .LB110 => (env.isOn addr .LB110).toOption
  | .Unknown => none

/-- Modelled from the spec: `Device::location` (library code absent from
`src/`) — the geolocation query is offered only by recognized kinds; the
`Unknown` handle has no geolocation capability. -/
def deviceLocation (env : Env) (addr : SockAddr) : DeviceKind → Except TpErr (Int × Int)
  | .HS100 => env.location addr .HS100
  | .HS110 => env.location addr .HS110
  | .LB110 => env.location addr .LB110
  | .Unknown => .error (.capability "location is not supported by this device")

/-- Modelled from the spec: `Device::reboot_with_delay` (library code
absent from `src/`) — action commands exist only for recognized kinds,
which issue the wire command; on `Unknown` it fails with a capability
error, not a network error, and issues nothing. -/
def rebootWithDelay (env : Env) (addr : SockAddr) (kind : DeviceKind) (delay : Nat) :
    Except TpErr Unit :=
  match kind with
  | .HS100 => env.reboot addr .HS100 delay
  | .HS110 => env.reboot addr .HS110 delay
  | .LB110 => env.reboot addr .LB110 delay
  | .Unknown => .error (.capability "reboot is not supported by this device")

/-! ## Output shaping (`Format`) -/

/-- The three output modes of the CLI. -/
inductive Format where
  | Short
  | Long
  | JSON
deriving DecidableEq

/-- `Format::device`: the tag rendered for a device kind. -/
def Format.device : DeviceKind → String
  | .HS100 => "HS100"
  | .HS110 => "HS110"
  | .LB110 => "LB110"
  | .Unknown => "unknown"

/-- serde serialization of `Option<bool>`: `None` is JSON null. -/
def optBool : Option Bool → Value
  | none => .null
  | some b => .bool b

/-- serde serialization of an optional number: `None` is JSON null. -/
def optNum : Option Int → Value
  | none => .null
  | some n => .num n

/-- serde serialization of the embedded `SysInfo` fields. -/
def sysinfoValue (i : SysInfo) : Value :=
  .obj [("alias", .str i.«alias»), ("dev_name", .str i.dev_name),
        ("model", .str i.model), ("mac", .str i.mac),
        ("hw_type", .str i.hw_type), ("sw_ver", .str i.sw_ver),
        ("rssi", .num i.rssi), ("active_mode", .str i.active_mode)]

/-- serde serialization of an optional coordinate pair. -/
def locValue : Option (Int × Int) → Value
  | none => .null
  | some (a, b) => .arr [.num a, .num b]

/-- `Format::status` from `main.rs`: shapes one resolved endpoint into a
row (short/long) or a nested record (JSON). -/
def Format.status (fmt : Format) (env : Env) (addr : SockAddr) (kind : DeviceKind)
    (sysinfo : SysInfo) : Value :=
  match fmt with
  | .Short =>
    .arr [.arr [.str "Address", .str addr.render],
          .arr [.str "Alias", .str sysinfo.«alias»],
          .arr [.str "Product", .str sysinfo.dev_name],
          .arr [.str "Model", .str sysinfo.model],
          .arr [.str "Signal", .str (toString sysinfo.rssi ++ " dB")],
          .arr [.str "On?", optBool (device_is_on env addr kind)]]
  | .Long =>
    let loc := (deviceLocation env addr kind).toOption
    .arr [.arr [.str "Address", .str addr.render],
          .arr [.str "MAC", .str sysinfo.mac],
          .arr [.str "Alias", .str sysinfo.«alias»],
          .arr [.str "Product", .str sysinfo.dev_name],
          .arr [.str "Type", .str sysinfo.hw_type],
          .arr [.str "Model", .str sysinfo.model],
          .arr [.str "Version", .str sysinfo.sw_ver],
          .arr [.str "Signal", .str (toString sysinfo.rssi ++ " dB")],
          .arr [.str "Latitude", optNum (loc.map (fun p => p.1))],
          .arr [.str "Longitude", optNum (loc.map (fun p => p.2))],
          .arr [.str "Mode", .str sysinfo.active_mode],
          .arr [.str "On?", optBool (device_is_on env addr kind)]]
  | .JSON =>
    .obj [("addr", .str addr.render),
          ("device", .str (Format.device kind)),
          ("data", .obj [("system", sysinfoValue sysinfo),
                         ("location", locValue (deviceLocation env addr kind).toOption)])]

/-- `Format::actioned` from `main.rs`: like `status` but with the action's
name and result as the last column (short/long) or an `actioned` record
(JSON). -/
def Format.actioned (fmt : Format) (addr : SockAddr) (kind : DeviceKind)
    (sysinfo : SysInfo) (action : String) (result : Value) : Value :=
  match fmt with
  | .Short =>
    .arr [.arr [.str "Address", .str addr.render],
          .arr [.str "Alias", .str sysinfo.«alias»],
          .arr [.str "Product", .str sysinfo.dev_name],
          .arr [.str "Model", .str sysinfo.model],
          .arr [.str action, result]]
  | .Long =>
    .arr [.arr [.str "Address", .str addr.render],
          .arr [.str "MAC", .str sysinfo.mac],
          .arr [.str "Alias", .str sysinfo.«alias»],
          .arr [.str "Product", .str sysinfo.dev_name],
          .arr [.str "Type", .str sysinfo.hw_type],
          .arr [.str "Model", .str sysinfo.model],
          .arr [.str "Version", .str sysinfo.sw_ver],
          .arr [.str action, result]]
  | .JSON =>
    .obj [("addr", .str addr.render),
          ("actioned", .obj [("action", .str action), ("result", result)]),
          ("device", .str (Format.device kind)),
          ("data", .obj [("system", sysinfoValue sysinfo)])]

/-- `Format::output`: JSON mode serializes the whole row vector; short and
long modes run the tabular renderer (`none` models a renderer panic). -/
def Format.output (fmt : Format) (rows : List Value) : Option String :=
  match fmt with
  | .JSON => some (jsonStr (.arr rows))
  | .Short => outputTable rows
  | .Long => outputTable rows

/-! ## The batch executor (`command_status`, `command_reboot`)

The source fans the address list out with rayon and collects with
`filter_map`: rayon's indexed `collect` preserves input order, so the
embedding is the order-preserving sequential fold.  The `eprintln!`
diagnostic sink is returned as an explicit second component, one entry per
failed endpoint, keyed by that endpoint. -/

/-- `command_status` from `main.rs`: per address, resolve the device and
shape a status row; a resolution failure is pushed to the diagnostic sink
keyed by the address and the address contributes no row. -/
def command_status (env : Env) (fmt : Format) :
    List SockAddr → List Value × List (SockAddr × String)
  | [] => ([], [])
  | addr :: rest =>
    let (vs, ds) := command_status env fmt rest
    match device_from_addr env addr with
    | .ok (a, kind, info) => (Format.status fmt env a kind info :: vs, ds)
    | .error e => (vs, (addr, errMsg e) :: ds)

/-- The action value built by `command_reboot`: `Ok` becomes JSON `true`,
`Err` becomes the text `"Error: …"`. -/
def actionResult (env : Env) (addr : SockAddr) (kind : DeviceKind) (delay : Nat) : Value :=
  match rebootWithDelay env addr kind delay with
  | .ok _ => .bool true
  | .error e => .str ("Error: " ++ errMsg e)

/-- `command_reboot` from `main.rs`: per address, resolve the device; on
success issue the reboot and shape an actioned row whose `Rebooted?` value
is `true` or the error text; a resolution failure is pushed to the
diagnostic sink keyed by the address and contributes no row. -/
def command_reboot (env : Env) (fmt : Format) (delay : Nat) :
    List SockAddr → List Value × List (SockAddr × String)
  | [] => ([], [])
  | addr :: rest =>
    let (vs, ds) := command_reboot env fmt delay rest
    match device_from_addr env addr with
    | .ok (a, kind, info) =>
      (Format.actioned fmt a kind info "Rebooted?" (actionResult env a kind delay) :: vs, ds)
    | .error e => (vs, (addr, errMsg e) :: ds)

/-- Whether resolution of an address fails in a given environment. -/
def resolveFails (env : Env) (addr : SockAddr) : Bool :=
  match device_from_addr env addr with
  | .ok _ => false
  | .error _ => true

/-- The row `command_status` contributes for one address, if any. -/
def statusRow (env : Env) (fmt : Format) (addr : SockAddr) : Option Value :=
  match device_from_addr env addr with
  | .ok (a, kind, info) => some (Format.status fmt env a kind info)
  | .error _ => none

/-- The row `command_reboot` contributes for one address, if any. -/
def rebootRow (env : Env) (fmt : Format) (delay : Nat) (addr : SockAddr) : Option Value :=
  match device_from_addr env addr with
  | .ok (a, kind, info) =>
    some (Format.actioned fmt a kind info "Rebooted?" (actionResult env a kind delay))
  | .error _ => none

/-- The diagnostic entry one address contributes, if any. -/
def diagEntry (env : Env) (addr : SockAddr) : Option (SockAddr × String) :=
  match device_from_addr env addr with
  | .ok _ => none
  | .error e => some (addr, errMsg e)

/-! ## CLI argument handling (`main`) -/

/-- The standard-library address parsers `main.rs` calls: `str::parse`
to a full `SocketAddr` and `str::parse` to a bare `IpAddr` (external
collaborators, embedded as oracles). -/
structure ParseEnv where
  parseSockAddr : String → Option SockAddr
  parseIp : String → Option String

/-- One address argument, following `parse_addresses`: try the full
`host:port` form, else the bare-host form with the standard port 9999;
`none` models the `expect` panic ("not a valid address"). -/
def parseAddress (penv : ParseEnv) (s : String) : Option SockAddr :=
  match penv.parseSockAddr s with
  | some a => some a
  | none =>
    match penv.parseIp s with
    | some host => some (SockAddr.mk host 9999)
    | none => none

/-- `parse_addresses` from `main.rs`: parses every address argument,
panicking (`none`) at the first argument neither parser accepts. -/
def parse_addresses (penv : ParseEnv) : List String → Option (List SockAddr)
  | [] => some []
  | s :: rest =>
    match parseAddress penv s with
    | none => none
    | some a =>
      match parse_addresses penv rest with
      | none => none
      | some rest1 => some (a :: rest1)

/-- Rust `u64::from_str`: an optional leading `+`, then one or more ASCII
digits, the value required to fit in 64 bits. -/
def parseU64 (s : String) : Option Nat :=
  let ds := match s.data with
    | '+' :: rest => rest
    | cs => cs
  if ds.isEmpty then none
  else if ds.all (fun c => c.isDigit) then
    let n := ds.foldl (fun acc c => acc * 10 + (c.toNat - '0'.toNat)) 0
    if n < 2 ^ 64 then some n else none
  else none

/-- `parse_seconds` from `main.rs`: a malformed count silently falls back
to the given default; durations are counted in whole seconds. -/
def parse_seconds (value : String) (default : Nat) : Nat :=
  match parseU64 value with
  | some n => n
  | none => default

/-- The `--timeout` handling in `main`: the literal `never` disables the
timeout, anything else goes through `parse_seconds` with default 3. -/
def timeoutArg (value : String) : Option Nat :=
  if value = "never" then none else some (parse_seconds value 3)

/-- The `--delay` handling in `main`: `parse_seconds` with default 1. -/
def delayArg (value : String) : Nat :=
  parse_seconds value 1

/-- The `status` pipeline of `main`: addresses are parsed first (argument
evaluation order), so a parse panic (`none`) aborts the whole invocation
and the executor is never entered; otherwise the shaped rows are rendered
and the diagnostics stream is returned alongside. -/
def mainStatus (penv : ParseEnv) (env : Env) (fmt : Format) (args : List String) :
    Option (Option String × List (SockAddr × String)) :=
  match parse_addresses penv args with
  | none => none
  | some addrs =>
    let (vs, ds) := command_status env fmt addrs
    some (Format.output fmt vs, ds)

/-- The `reboot` pipeline of `main`, analogous to `mainStatus`. -/
def mainReboot (penv : ParseEnv) (env : Env) (fmt : Format) (delay : String)
    (args : List String) : Option (Option String × List (SockAddr × String)) :=
  match parse_addresses penv args with
  | none => none
  | some addrs =>
    let (vs, ds) := command_reboot env fmt (delayArg delay) addrs
    some (Format.output fmt vs, ds)

/-! ## Concrete inputs used by witnesses and counterexamples -/

/-- Row1 of the specification's rendering example. -/
def statusRow1 : Value :=
  .arr [.arr [.str "Address", .str "10.0.0.5:9999"],
        .arr [.str "Alias", .str "Plug1"],
        .arr [.str "On?", .bool true]]

/-- Row2 of the specification's rendering example (`On?` absent). -/
def statusRow2 : Value :=
  .arr [.arr [.str "Address", .str "10.0.0.6:9999"],
        .arr [.str "Alias", .str "Plug2"],
        .arr [.str "On?", .null]]

/-- A short-mode reboot row as `Format::actioned` shapes it: the
`Rebooted?` column's only value is the 4-character `true`. -/
def rebootShortRow : Value :=
  .arr [.arr [.str "Address", .str "10.0.0.5:9999"],
        .arr [.str "Alias", .str "Plug1"],
        .arr [.str "Product", .str "Smart Wi-Fi Plug"],
        .arr [.str "Model", .str "HS100(UK)"],
        .arr [.str "Rebooted?", .bool true]]

/-- Two rows where the second lacks the label `B` seen in the first. -/
def missingLabelRows : List Value :=
  [.arr [.arr [.str "A", .str "x"], .arr [.str "B", .str "y"]],
   .arr [.arr [.str "A", .str "z"]]]

/-- A concrete endpoint. -/
def cAddr : SockAddr := ⟨"10.0.0.5", 9999⟩

/-- The `SysInfo` a raw probe reports for an HS100 plug. -/
def cInfoRaw : SysInfo :=
  ⟨"Plug1", "Smart Wi-Fi Plug", "HS100(UK)", "50:C7:BF:00:00:01",
   "IOT.SMARTPLUGSWITCH", "1.2.5", -61, ""⟩

/-- The canonical `SysInfo` the typed HS100 handle reports (differs from
the raw probe in the active-mode field). -/
def cInfoTyped : SysInfo :=
  ⟨"Plug1", "Smart Wi-Fi Plug", "HS100(UK)", "50:C7:BF:00:00:01",
   "IOT.SMARTPLUGSWITCH", "1.2.5", -61, "schedule"⟩

/-- The `SysInfo` of a device of unrecognized model. -/
def cInfoU : SysInfo :=
  ⟨"Bulb9", "Smart Bulb", "KL50(AU)", "50:C7:BF:00:00:02",
   "IOT.SMARTBULB", "1.0.0", -70, ""⟩

/-- A network in which every endpoint resolves as an HS100 whose reboot
command fails with a network error. -/
def cEnv : Env where
  rawSysinfo := fun _ => .ok cInfoRaw
  typedSysinfo := fun _ _ => .ok cInfoTyped
  isOn := fun _ _ => .ok true
  location := fun _ _ => .ok (51, 0)
  reboot := fun _ _ _ => .error (.network "connection timed out")

/-- A network in which every endpoint reports the unrecognized model. -/
def cEnvU : Env where
  rawSysinfo := fun _ => .ok cInfoU
  typedSysinfo := fun _ _ => .ok cInfoU
  isOn := fun _ _ => .ok true
  location := fun _ _ => .ok (51, 0)
  reboot := fun _ _ _ => .ok ()

/-- A parser oracle accepting exactly one full address and one bare host. -/
def cPenv : ParseEnv where
  parseSockAddr := fun t => if t = "1.2.3.4:80" then some ⟨"1.2.3.4", 80⟩ else none
  parseIp := fun t => if t = "5.6.7.8" then some "5.6.7.8" else none

/-! ## Claims C2, C7, C4 (counterexample), C10 -/

/-- C2: the claim reads "the rendered column width is at least the length
of the column's label and at least the length of every value rendered into
that column".  The code computes a column's width as the maximum over its
rendered values only and never consults the label, although its own header
construction pads the label to that width (alignment presupposes the label
fits).  On a short-mode reboot row the `Rebooted?` column gets width 4
from its only value `true`, strictly less than the 9-character label, so
the header cell overflows the column and the table misaligns. -/
theorem c2_width_ignores_label :
    columnWidth [rebootShortRow] "Rebooted?" = some 4 ∧ 4 < "Rebooted?".length := by
  decide

/-- C7 counterexample: on the specification's own example rows the widths
the renderer computes are 13, 5, 4 — the address values are 13 characters
long, not 14 — so the claimed width list 14, 5, 4 is wrong. -/
theorem c7_counterexample :
    collectWidths [statusRow1, statusRow2] ≠ some [14, 5, 4] := by
  decide

/-- C7 (amended): on the two example status rows the tabular renderer
produces the columns in order Address, Alias, On? with widths 13, 5 and 4,
and Row2's On? cell renders as the filler `-`. -/
theorem c7_example_rendering :
    collectLabels [statusRow1, statusRow2] = some ["Address", "Alias", "On?"] ∧
    collectWidths [statusRow1, statusRow2] = some [13, 5, 4] ∧
    (collectFields [statusRow1, statusRow2]).map
        (fun p => p.2.map (fun proc => lookupA proc "On?"))
      = some [some "true", some "-"] := by
  decide

/-- C4 counterexample: on a collection whose second row lacks the label
`B` present in the first, schema collection succeeds but the renderer
panics (`row.get(name).unwrap()`), so no line is emitted for that row and
no filler is substituted — the claim's "rather than failing" is wrong. -/
theorem c4_counterexample :
    (collectFields missingLabelRows).isSome = true ∧
    outputTable missingLabelRows = none := by
  decide

/-- C10: a `--timeout` value that is neither the literal `never` nor a
valid u64 count, and a `--delay` value that is not a valid u64 count, are
silently replaced by the defaults (3 s and 1 s) — the parsers are total
and never abort the invocation. -/
theorem c10_malformed_durations_default (t d : String)
    (ht : parseU64 t = none) (hne : t ≠ "never") (hd : parseU64 d = none) :
    timeoutArg t = some 3 ∧ delayArg d = 1 := by
  refine ⟨?_, ?_⟩
  · simp [timeoutArg, hne, parse_seconds, ht]
  · simp [delayArg, parse_seconds, hd]

/-- Witness for C10 at the malformed values `3s` and `fast`. -/
theorem c10_witness : timeoutArg "3s" = some 3 ∧ delayArg "fast" = 1 :=
  c10_malformed_durations_default "3s" "fast" (by decide) (by decide) (by decide)

/-! ## Claim C5 — resolver dispatch -/

/-- C5: resolution probes the endpoint for `SysInfo` and matches the
reported model against the ordered list HS100, HS110, LB110,
first match wins; a recognized kind re-issues the status query through
the typed handle and returns that second result as the canonical
`SysInfo`; with no matching model the original probe's `SysInfo` is
returned with an `Unknown` handle, and no second query is made (the
outcome is independent of the typed-query oracle: any environment
agreeing on the raw probe resolves identically). -/
theorem c5_resolver_dispatch (env env2 : Env) (addr : SockAddr) (info : SysInfo)
    (h : env.rawSysinfo addr = .ok info) (h2 : env2.rawSysinfo addr = .ok info) :
    (startsWithM info.model "HS100" = true →
      device_from_addr env addr
        = (env.typedSysinfo addr .HS100).map (fun i => (addr, .HS100, i))) ∧
    (startsWithM info.model "HS100" = false → startsWithM info.model "HS110" = true →
      device_from_addr env addr
        = (env.typedSysinfo addr .HS110).map (fun i => (addr, .HS110, i))) ∧
    (startsWithM info.model "HS100" = false → startsWithM info.model "HS110" = false →
      startsWithM info.model "LB110" = true →
      device_from_addr env addr
        = (env.typedSysinfo addr .LB110).map (fun i => (addr, .LB110, i))) ∧
    (startsWithM info.model "HS100" = false → startsWithM info.model "HS110" = false →
      startsWithM info.model "LB110" = false →
      device_from_addr env addr = .ok (addr, .Unknown, info) ∧
      device_from_addr env addr = device_from_addr env2 addr) := by
  refine ⟨fun e1 => ?_, fun e1 e2 => ?_, fun e1 e2 e3 => ?_, fun e1 e2 e3 => ?_⟩
  · cases ht : env.typedSysinfo addr .HS100 <;>
      simp [device_from_addr, h, e1, ht, Except.map]
  · cases ht : env.typedSysinfo addr .HS110 <;>
      simp [device_from_addr, h, e1, e2, ht, Except.map]
  · cases ht : env.typedSysinfo addr .LB110 <;>
      simp [device_from_addr, h, e1, e2, e3, ht, Except.map]
  · simp [device_from_addr, h, h2, e1, e2, e3]

/-- Witness for C5: in the concrete HS100 network, resolution returns the
typed handle's second `SysInfo` (so the canonical record is the one the
typed query reports, not the raw probe's). -/
theorem c5_witness :
    cEnv.rawSysinfo cAddr = .ok cInfoRaw ∧
    startsWithM cInfoRaw.model "HS100" = true ∧
    device_from_addr cEnv cAddr
      = (cEnv.typedSysinfo cAddr .HS100).map (fun i => (cAddr, .HS100, i)) ∧
    device_from_addr cEnv cAddr = .ok (cAddr, .HS100, cInfoTyped) :=
  ⟨rfl, by decide,
   (c5_resolver_dispatch cEnv cEnv cAddr cInfoRaw rfl rfl).1 (by decide), rfl⟩

/-! ## Claim C8 — the Unknown handle's capabilities -/

/-- C8: an endpoint whose reported model matches no known prefix resolves
to the `Unknown` handle with the original probe's `SysInfo`; its reboot
action fails with a capability error (never a network error) and its
on-state is `None` — both independently of the network environment, i.e.
without any query — it offers no geolocation, and its short status row
reports the on-state as absent (JSON null, rendered `-`). -/
theorem c8_unknown_capabilities (env env2 : Env) (addr : SockAddr) (info : SysInfo)
    (h : env.rawSysinfo addr = .ok info)
    (e1 : startsWithM info.model "HS100" = false)
    (e2 : startsWithM info.model "HS110" = false)
    (e3 : startsWithM info.model "LB110" = false) :
    device_from_addr env addr = .ok (addr, .Unknown, info) ∧
    (∀ delay, rebootWithDelay env2 addr .Unknown delay
      = .error (.capability "reboot is not supported by this device")) ∧
    (∀ delay m, rebootWithDelay env2 addr .Unknown delay ≠ .error (.network m)) ∧
    device_is_on env2 addr .Unknown = none ∧
    deviceLocation env2 addr .Unknown
      = .error (.capability "location is not supported by this device") ∧
    Format.status .Short env addr .Unknown info
      = .arr [.arr [.str "Address", .str addr.render],
              .arr [.str "Alias", .str info.«alias»],
              .arr [.str "Product", .str info.dev_name],
              .arr [.str "Model", .str info.model],
              .arr [.str "Signal", .str (toString info.rssi ++ " dB")],
              .arr [.str "On?", .null]] := by
  refine ⟨by simp [device_from_addr, h, e1, e2, e3], fun delay => rfl,
          fun delay m hne => by simp [rebootWithDelay] at hne, rfl, rfl, rfl⟩

/-- Witness for C8 in the concrete network of `KL50(AU)` devices. -/
theorem c8_witness :
    cEnvU.rawSysinfo cAddr = .ok cInfoU ∧
    device_from_addr cEnvU cAddr = .ok (cAddr, .Unknown, cInfoU) ∧
    device_is_on cEnvU cAddr .Unknown = none ∧
    rebootWithDelay cEnvU cAddr .Unknown 1
      = .error (.capability "reboot is not supported by this device") :=
  have h := c8_unknown_capabilities cEnvU cEnvU cAddr cInfoU rfl
    (by decide) (by decide) (by decide)
  ⟨rfl, h.1, h.2.2.2.1, h.2.1 1⟩

/-! ## Claim C9 — address parsing is pre-flight and fatal -/

/-- A parse panic at any member aborts `parse_addresses` as a whole. -/
theorem parse_addresses_none_of_mem (penv : ParseEnv) (s : String)
    (hs : parseAddress penv s = none) :
    ∀ args : List String, s ∈ args → parse_addresses penv args = none := by
  intro args
  induction args with
  | nil => intro hmem; cases hmem
  | cons a rest ih =>
    intro hmem
    rcases List.mem_cons.mp hmem with rfl | hmem2
    · simp [parse_addresses, hs]
    · cases ha : parseAddress penv a <;> simp [parse_addresses, ha, ih hmem2]

/-- C9: an address argument is accepted in the `host:port` form, or in
the bare `host` form with the port defaulting to the standard 9999; if
any argument parses as neither, the whole invocation panics before the
executor runs — the outcome is `none` for every network environment, so
no endpoint of the batch is contacted. -/
theorem c9_address_preflight (penv : ParseEnv) (s : String) :
    (∀ a, penv.parseSockAddr s = some a → parseAddress penv s = some a) ∧
    (penv.parseSockAddr s = none → ∀ h, penv.parseIp s = some h →
      parseAddress penv s = some (SockAddr.mk h 9999)) ∧
    (penv.parseSockAddr s = none → penv.parseIp s = none →
      ∀ args : List String, s ∈ args →
        parse_addresses penv args = none ∧
        (∀ env fmt, mainStatus penv env fmt args = none) ∧
        (∀ env fmt delay, mainReboot penv env fmt delay args = none)) := by
  refine ⟨fun a ha => by simp [parseAddress, ha], fun hn h hh => by simp [parseAddress, hn, hh],
          fun hn hi args hmem => ?_⟩
  have hpa : parseAddress penv s = none := by simp [parseAddress, hn, hi]
  have hall := parse_addresses_none_of_mem penv s hpa args hmem
  exact ⟨hall, fun env fmt => by simp [mainStatus, hall],
         fun env fmt delay => by simp [mainReboot, hall]⟩

/-- Witness for C9: a batch with one well-formed and one malformed address
aborts whole — for the concrete network too, nothing is returned. -/
theorem c9_witness :
    parse_addresses cPenv ["1.2.3.4:80", "nonsense"] = none ∧
    mainStatus cPenv cEnv .Short ["1.2.3.4:80", "nonsense"] = none ∧
    mainReboot cPenv cEnv .Long "1" ["1.2.3.4:80", "nonsense"] = none :=
  have h := (c9_address_preflight cPenv "nonsense").2.2 (by decide) (by decide)
    ["1.2.3.4:80", "nonsense"] (by decide)
  ⟨h.1, h.2.1 cEnv .Short, h.2.2 cEnv .Long "1"⟩

/-! ## Claim C1 — counterexample: reboot action failures are not dropped -/

/-- C1 counterexample: one endpoint (N = 1) that resolves but whose reboot
action fails (M = 1 in the claim's counting).  The claim predicts an empty
result collection with the endpoint recorded to the diagnostic sink; the
code instead keeps the endpoint's row — carrying the error text in the
`Rebooted?` column — and records nothing. -/
theorem c1_counterexample :
    rebootWithDelay cEnv cAddr .HS100 1 = .error (.network "connection timed out") ∧
    (command_reboot cEnv .Short 1 [cAddr]).1.length = 1 ∧
    (command_reboot cEnv .Short 1 [cAddr]).2 = [] ∧
    actionResult cEnv cAddr .HS100 1 = .str "Error: connection timed out" := by
  refine ⟨rfl, rfl, rfl, rfl⟩

/-! ## Executor characterization lemmas -/

/-- `command_status` is the per-address partition into success rows and
failure diagnostics: each address's contribution depends only on its own
resolution outcome. -/
theorem command_status_spec (env : Env) (fmt : Format) (addrs : List SockAddr) :
    command_status env fmt addrs
      = (addrs.filterMap (statusRow env fmt), addrs.filterMap (diagEntry env)) := by
  induction addrs with
  | nil => rfl
  | cons a rest ih =>
    cases h : device_from_addr env a with
    | ok t =>
      obtain ⟨a1, kind, info⟩ := t
      simp [command_status, ih, statusRow, diagEntry, h]
    | error e =>
      simp [command_status, ih, statusRow, diagEntry, h]

/-- `command_reboot` is the same partition, with actioned rows. -/
theorem command_reboot_spec (env : Env) (fmt : Format) (delay : Nat)
    (addrs : List SockAddr) :
    command_reboot env fmt delay addrs
      = (addrs.filterMap (rebootRow env fmt delay), addrs.filterMap (diagEntry env)) := by
  induction addrs with
  | nil => rfl
  | cons a rest ih =>
    cases h : device_from_addr env a with
    | ok t =>
      obtain ⟨a1, kind, info⟩ := t
      simp [command_reboot, ih, rebootRow, diagEntry, h]
    | error e =>
      simp [command_reboot, ih, rebootRow, diagEntry, h]

/-- Counting: when `f` returns `none` exactly on the elements `g` keeps,
`filterMap f` has the length of the input minus the `g`-count. -/
theorem length_filterMap_eq_sub {α β : Type} (l : List α) (f : α → Option β)
    (g : α → Bool) (hfg : ∀ a, (f a).isNone = g a) :
    (l.filterMap f).length = l.length - (l.filter g).length := by
  induction l with
  | nil => rfl
  | cons a rest ih =>
    cases hf : f a with
    | none =>
      have hg : g a = true := by rw [← hfg a, hf]; rfl
      simp [List.filterMap_cons, List.filter_cons, hf, hg, ih, Nat.succ_sub_succ]
    | some b =>
      have hg : g a = false := by rw [← hfg a, hf]; rfl
      have hle : (rest.filter g).length ≤ rest.length := rest.length_filter_le g
      simp [List.filterMap_cons, List.filter_cons, hf, hg, ih, Nat.succ_sub hle]

/-- Counting: when `f` returns `some` exactly on the elements `g` keeps,
`filterMap f` has the `g`-count's length. -/
theorem length_filterMap_eq_filter {α β : Type} (l : List α) (f : α → Option β)
    (g : α → Bool) (hfg : ∀ a, (f a).isSome = g a) :
    (l.filterMap f).length = (l.filter g).length := by
  induction l with
  | nil => rfl
  | cons a rest ih =>
    cases hf : f a with
    | none =>
      have hg : g a = false := by rw [← hfg a, hf]; rfl
      simp [List.filterMap_cons, List.filter_cons, hf, hg, ih]
    | some b =>
      have hg : g a = true := by rw [← hfg a, hf]; rfl
      simp [List.filterMap_cons, List.filter_cons, hf, hg, ih]

/-- A status row exists exactly when resolution does not fail. -/
theorem statusRow_isNone (env : Env) (fmt : Format) (a : SockAddr) :
    (statusRow env fmt a).isNone = resolveFails env a := by
  unfold statusRow resolveFails
  cases h : device_from_addr env a with
  | ok t => obtain ⟨a1, kind, info⟩ := t; rfl
  | error e => rfl

/-- A reboot row exists exactly when resolution does not fail. -/
theorem rebootRow_isNone (env : Env) (fmt : Format) (delay : Nat) (a : SockAddr) :
    (rebootRow env fmt delay a).isNone = resolveFails env a := by
  unfold rebootRow resolveFails
  cases h : device_from_addr env a with
  | ok t => obtain ⟨a1, kind, info⟩ := t; rfl
  | error e => rfl

/-- A diagnostic entry exists exactly when resolution fails. -/
theorem diagEntry_isSome (env : Env) (a : SockAddr) :
    (diagEntry env a).isSome = resolveFails env a := by
  unfold diagEntry resolveFails
  cases h : device_from_addr env a with
  | ok t => rfl
  | error e => rfl

/-! ## Claims C1 (amended) and C6 -/

/-- C1 (amended): per-endpoint failure isolation.  For `status`, an
endpoint whose resolution (including the typed re-query) fails is recorded
to the diagnostic sink keyed by that endpoint and dropped from the result
collection.  For `reboot`, the same holds for resolution failures, while
an action failure after successful resolution is *not* dropped: the
endpoint keeps its row, carrying the error text in the action column.
With M the number of endpoints whose resolution fails, both commands
return exactly N − M rows; each endpoint's contribution is a function of
its own outcome alone (the result and the sink are pointwise `filterMap`s
over the address list), so no failure aborts sibling endpoints. -/
theorem c1_failure_isolation (env : Env) (fmt : Format) (delay : Nat)
    (addrs : List SockAddr) :
    (command_status env fmt addrs).1 = addrs.filterMap (statusRow env fmt) ∧
    (command_status env fmt addrs).2 = addrs.filterMap (diagEntry env) ∧
    (command_status env fmt addrs).1.length
      = addrs.length - (addrs.filter (resolveFails env)).length ∧
    (command_reboot env fmt delay addrs).1 = addrs.filterMap (rebootRow env fmt delay) ∧
    (command_reboot env fmt delay addrs).2 = addrs.filterMap (diagEntry env) ∧
    (command_reboot env fmt delay addrs).1.length
      = addrs.length - (addrs.filter (resolveFails env)).length := by
  refine ⟨by rw [command_status_spec], by rw [command_status_spec],
          ?_, by rw [command_reboot_spec], by rw [command_reboot_spec], ?_⟩
  · rw [command_status_spec]
    exact length_filterMap_eq_sub addrs _ _ (statusRow_isNone env fmt)
  · rw [command_reboot_spec]
    exact length_filterMap_eq_sub addrs _ _ (rebootRow_isNone env fmt delay)

/-- C6: a reboot over N addresses of which M fail resolution returns
exactly N − M rows — the diagnostic sink holds exactly the M failed
endpoints, keyed by endpoint — and every row an endpoint contributes
carries, as the `Rebooted?` action value, either the boolean `true` (the
command succeeded) or the text `Error: …` (the command failed after
successful resolution). -/
theorem c6_reboot_outcomes (env : Env) (fmt : Format) (delay : Nat)
    (addrs : List SockAddr) :
    (command_reboot env fmt delay addrs).1.length
      = addrs.length - (command_reboot env fmt delay addrs).2.length ∧
    (command_reboot env fmt delay addrs).2.length
      = (addrs.filter (resolveFails env)).length ∧
    (command_reboot env fmt delay addrs).1 = addrs.filterMap (rebootRow env fmt delay) ∧
    (command_reboot env fmt delay addrs).2 = addrs.filterMap (diagEntry env) ∧
    (∀ a kind d2, actionResult env a kind d2 = .bool true ∨
      ∃ m, actionResult env a kind d2 = .str ("Error: " ++ m)) := by
  have hd : (command_reboot env fmt delay addrs).2.length
      = (addrs.filter (resolveFails env)).length := by
    rw [command_reboot_spec]
    exact length_filterMap_eq_filter addrs _ _ (diagEntry_isSome env)
  refine ⟨?_, hd, by rw [command_reboot_spec], by rw [command_reboot_spec], ?_⟩
  · rw [hd, command_reboot_spec]
    exact length_filterMap_eq_sub addrs _ _ (rebootRow_isNone env fmt delay)
  · intro a kind d2
    unfold actionResult
    cases h : rebootWithDelay env a kind d2 with
    | ok u => exact Or.inl rfl
    | error e => exact Or.inr ⟨errMsg e, rfl⟩

/-! ## Schema-collection lemmas (towards C3 and C4) -/

/-- Every field is, for the collector, a panic, a skipped element, or a
registered label — and the specification-side `fieldLabel` agrees with the
latter two cases. -/
theorem fieldEntry_cases (f : Value) :
    fieldEntry f = none ∨
    (fieldEntry f = some none ∧ fieldLabel f = none) ∨
    (∃ k h, fieldEntry f = some (some (k, h)) ∧ fieldLabel f = some k) := by
  cases f with
  | null => exact Or.inl rfl
  | bool b => exact Or.inl rfl
  | num n => exact Or.inl rfl
  | str s => exact Or.inl rfl
  | obj fs => exact Or.inl rfl
  | arr vs =>
    rcases vs with _ | ⟨a, _ | ⟨b, _ | ⟨c, rest⟩⟩⟩
    · exact Or.inr (Or.inl ⟨rfl, rfl⟩)
    · exact Or.inr (Or.inl ⟨rfl, rfl⟩)
    · cases a with
      | str s => exact Or.inr (Or.inr ⟨s, human_stringify b, rfl, rfl⟩)
      | null => exact Or.inl rfl
      | bool b2 => exact Or.inl rfl
      | num n => exact Or.inl rfl
      | arr vs2 => exact Or.inl rfl
      | obj fs2 => exact Or.inl rfl
    · exact Or.inr (Or.inl ⟨rfl, rfl⟩)

/-- Registering a label leaves the label sequence unchanged when the label
is already present and appends it otherwise. -/
theorem registerField_labels (fields : List (String × FieldInfo)) (k : String) (w : Nat) :
    (registerField fields k w).map (fun p => p.1)
      = if k ∈ fields.map (fun p => p.1) then fields.map (fun p => p.1)
        else fields.map (fun p => p.1) ++ [k] := by
  by_cases hc : k ∈ fields.map (fun p => p.1)
  · have hany : fields.any (fun p => p.1 == k) = true := by
      obtain ⟨p, hp, hpk⟩ := List.mem_map.mp hc
      exact List.any_eq_true.mpr ⟨p, hp, by simp [hpk]⟩
    simp only [registerField, hany, if_true, if_pos hc, List.map_map]
    exact List.map_congr_left fun p hp => by
      simp only [Function.comp_apply]
      split <;> rfl
  · have hany : fields.any (fun p => p.1 == k) = false := by
      refine List.any_eq_false.mpr ?_
      intro p hp hpk
      exact hc (List.mem_map.mpr ⟨p, hp, by simpa using hpk⟩)
    simp [registerField, hany, hc]

/-- First-occurrence deduplication distributes over append: the second
part is deduplicated relative to everything seen through the first. -/
theorem dedupFirstAux_append (l1 l2 : List String) :
    ∀ seen, dedupFirstAux seen (l1 ++ l2)
      = dedupFirstAux seen l1 ++ dedupFirstAux (seen ++ dedupFirstAux seen l1) l2 := by
  induction l1 with
  | nil => intro seen; simp [dedupFirstAux]
  | cons x xs ih =>
    intro seen
    by_cases hx : x ∈ seen
    · simp [dedupFirstAux, hx, ih]
    · simp only [List.cons_append, dedupFirstAux, if_neg hx, List.append_eq]
      rw [ih (seen ++ [x])]
      simp [List.append_assoc]

/-- The registry's label sequence after a field loop: the starting labels
followed by the first occurrences of the row's labels. -/
theorem processFields_labels (fs : List Value) :
    ∀ fields proc fields1 proc1,
      processFields fields proc fs = some (fields1, proc1) →
      fields1.map (fun p => p.1)
        = fields.map (fun p => p.1)
          ++ dedupFirstAux (fields.map (fun p => p.1)) (fs.filterMap fieldLabel) := by
  induction fs with
  | nil =>
    intro fields proc fields1 proc1 h
    simp only [processFields, Option.some.injEq, Prod.mk.injEq] at h
    simp [← h.1, dedupFirstAux]
  | cons f fs2 ih =>
    intro fields proc fields1 proc1 h
    rcases fieldEntry_cases f with hfe | ⟨hfe, hfl⟩ | ⟨k, hv, hfe, hfl⟩
    · rw [processFields, hfe] at h
      exact absurd h (by simp)
    · rw [processFields, hfe] at h
      rw [List.filterMap_cons, hfl]
      exact ih fields proc fields1 proc1 h
    · rw [processFields, hfe] at h
      have ih2 := ih _ _ _ _ h
      rw [List.filterMap_cons, hfl, ih2, registerField_labels]
      by_cases hk : k ∈ fields.map (fun p => p.1)
      · simp [hk, dedupFirstAux]
      · simp [hk, dedupFirstAux, List.append_assoc]

/-- The registry's label sequence after the whole row loop: the starting
labels followed by the first occurrences of all labels of the rows. -/
theorem collectRows_labels (rows : List Value) :
    ∀ fields fields2 procs,
      collectRows fields rows = some (fields2, procs) →
      fields2.map (fun p => p.1)
        = fields.map (fun p => p.1)
          ++ dedupFirstAux (fields.map (fun p => p.1)) (extractLabels rows) := by
  induction rows with
  | nil =>
    intro fields fields2 procs h
    simp only [collectRows, Option.some.injEq, Prod.mk.injEq] at h
    simp [← h.1, extractLabels, dedupFirstAux]
  | cons row rest ih =>
    intro fields fields2 procs h
    have hext : extractLabels (row :: rest) = rowLabels row ++ extractLabels rest := by
      simp [extractLabels]
    cases row with
    | arr vs =>
      rw [collectRows] at h
      split at h
      · exact absurd h (by simp)
      · rename_i fields1 proc hp
        split at h
        · exact absurd h (by simp)
        · rename_i fields3 procs3 hc
          simp only [Option.some.injEq, Prod.mk.injEq] at h
          have hl1 := processFields_labels vs fields [] fields1 proc hp
          have hl2 := ih fields1 fields3 procs3 hc
          rw [← h.1, hl2, hl1, hext, dedupFirstAux_append]
          have hrl : rowLabels (Value.arr vs) = vs.filterMap fieldLabel := rfl
          rw [hrl, ← List.append_assoc]
    | null => exact absurd h (by simp [collectRows])
    | bool b => exact absurd h (by simp [collectRows])
    | num n => exact absurd h (by simp [collectRows])
    | str s => exact absurd h (by simp [collectRows])
    | obj fs => exact absurd h (by simp [collectRows])

/-- Registering a field preserves the invariant that the registry's orders
are exactly `0, 1, …, length − 1` in list position. -/
theorem registerField_orders (fields : List (String × FieldInfo)) (k : String) (w : Nat)
    (h : fields.map (fun p => p.2.order) = List.range fields.length) :
    (registerField fields k w).map (fun p => p.2.order)
      = List.range (registerField fields k w).length := by
  by_cases hany : fields.any (fun p => p.1 == k) = true
  · simp only [registerField, hany, if_true, List.map_map, List.length_map]
    calc fields.map ((fun p => p.2.order) ∘ fun p =>
            if p.1 == k then (p.1, ⟨p.2.order, max p.2.width w⟩) else p)
        = fields.map (fun p => p.2.order) := by
          exact List.map_congr_left fun p hp => by
            simp only [Function.comp_apply]
            split <;> rfl
      _ = List.range fields.length := h
  · have hf : fields.any (fun p => p.1 == k) = false := by
      cases hb : fields.any (fun p => p.1 == k)
      · rfl
      · exact absurd hb hany
    simp only [registerField, hf, Bool.false_eq_true, if_false, List.map_append,
      List.length_append, List.length_singleton, h]
    simp [List.range_succ]

/-- The field loop preserves the order invariant. -/
theorem processFields_orders (fs : List Value) :
    ∀ fields proc fields1 proc1,
      processFields fields proc fs = some (fields1, proc1) →
      fields.map (fun p => p.2.order) = List.range fields.length →
      fields1.map (fun p => p.2.order) = List.range fields1.length := by
  induction fs with
  | nil =>
    intro fields proc fields1 proc1 h hord
    simp only [processFields, Option.some.injEq, Prod.mk.injEq] at h
    rw [← h.1]
    exact hord
  | cons f fs2 ih =>
    intro fields proc fields1 proc1 h hord
    rcases fieldEntry_cases f with hfe | ⟨hfe, hfl⟩ | ⟨k, hv, hfe, hfl⟩
    · rw [processFields, hfe] at h
      exact absurd h (by simp)
    · rw [processFields, hfe] at h
      exact ih fields proc fields1 proc1 h hord
    · rw [processFields, hfe] at h
      exact ih _ _ _ _ h (registerField_orders fields k hv.length hord)

/-- The row loop preserves the order invariant. -/
theorem collectRows_orders (rows : List Value) :
    ∀ fields fields2 procs,
      collectRows fields rows = some (fields2, procs) →
      fields.map (fun p => p.2.order) = List.range fields.length →
      fields2.map (fun p => p.2.order) = List.range fields2.length := by
  induction rows with
  | nil =>
    intro fields fields2 procs h hord
    simp only [collectRows, Option.some.injEq, Prod.mk.injEq] at h
    rw [← h.1]
    exact hord
  | cons row rest ih =>
    intro fields fields2 procs h hord
    cases row with
    | arr vs =>
      rw [collectRows] at h
      split at h
      · exact absurd h (by simp)
      · rename_i fields1 proc hp
        split at h
        · exact absurd h (by simp)
        · rename_i fields3 procs3 hc
          simp only [Option.some.injEq, Prod.mk.injEq] at h
          rw [← h.1]
          exact ih fields1 fields3 procs3 hc
            (processFields_orders vs fields [] fields1 proc hp hord)
    | null => exact absurd h (by simp [collectRows])
    | bool b => exact absurd h (by simp [collectRows])
    | num n => exact absurd h (by simp [collectRows])
    | str s => exact absurd h (by simp [collectRows])
    | obj fs => exact absurd h (by simp [collectRows])

/-- A registry whose orders are `0, 1, …` in list position is sorted. -/
theorem pairwise_of_orders (l : List (String × FieldInfo))
    (h : l.map (fun p => p.2.order) = List.range l.length) :
    List.Pairwise (fun a b : String × FieldInfo => a.2.order ≤ b.2.order) l := by
  have hr : List.Pairwise (· < ·) (l.map (fun p => p.2.order)) := by
    rw [h]
    exact List.pairwise_lt_range l.length
  rw [List.pairwise_map] at hr
  exact hr.imp Nat.le_of_lt

/-- Sorting by order is the identity on an order-sorted registry. -/
theorem sortByOrder_eq_self (l : List (String × FieldInfo))
    (h : List.Pairwise (fun a b : String × FieldInfo => a.2.order ≤ b.2.order) l) :
    sortByOrder l = l := by
  induction l with
  | nil => rfl
  | cons x xs ih =>
    rw [sortByOrder, ih (List.pairwise_cons.mp h).2]
    cases xs with
    | nil => rfl
    | cons y ys =>
      have hxy : x.2.order ≤ y.2.order :=
        (List.pairwise_cons.mp h).1 y (List.mem_cons_self y ys)
      simp [insertByOrder, hxy]

/-! ## Claim C3 — column order is first-occurrence order -/

/-- C3: whenever the tabular renderer's schema collection succeeds, the
emitted column order — the registry sorted by first-seen index — equals
the strict first-occurrence order of the labels obtained by scanning the
rows, and the fields within each row, in the order given. -/
theorem c3_column_first_occurrence (rows : List Value)
    (fields : List (String × FieldInfo)) (procs : List (List (String × String)))
    (h : collectFields rows = some (fields, procs)) :
    (sortByOrder fields).map (fun p => p.1) = dedupFirst (extractLabels rows) := by
  have horder := collectRows_orders rows [] fields procs h rfl
  rw [sortByOrder_eq_self fields (pairwise_of_orders fields horder)]
  have hl := collectRows_labels rows [] fields procs h
  simpa [dedupFirst] using hl

/-- The registry the example rows produce. -/
def exFields : List (String × FieldInfo) :=
  [("Address", ⟨0, 13⟩), ("Alias", ⟨1, 5⟩), ("On?", ⟨2, 4⟩)]

/-- The rendered row maps the example rows produce. -/
def exProcs : List (List (String × String)) :=
  [[("Address", "10.0.0.5:9999"), ("Alias", "Plug1"), ("On?", "true")],
   [("Address", "10.0.0.6:9999"), ("Alias", "Plug2"), ("On?", "-")]]

/-- Witness for C3 at the specification's example rows. -/
theorem c3_witness :
    collectFields [statusRow1, statusRow2] = some (exFields, exProcs) ∧
    (sortByOrder exFields).map (fun p => p.1)
      = dedupFirst (extractLabels [statusRow1, statusRow2]) :=
  ⟨by decide,
   c3_column_first_occurrence [statusRow1, statusRow2] exFields exProcs (by decide)⟩

/-! ## Claim C4 — a missing label panics the renderer -/

/-- The inserted element is a member of the insertion result. -/
theorem self_mem_insertByOrder (x : String × FieldInfo)
    (l : List (String × FieldInfo)) : x ∈ insertByOrder x l := by
  induction l with
  | nil => simp [insertByOrder]
  | cons y ys ih =>
    by_cases h : x.2.order ≤ y.2.order <;> simp [insertByOrder, h, ih]

/-- Insertion preserves the members of the list. -/
theorem mem_insertByOrder_of_mem (x z : String × FieldInfo)
    (l : List (String × FieldInfo)) (h : z ∈ l) : z ∈ insertByOrder x l := by
  induction l with
  | nil => cases h
  | cons y ys ih =>
    rcases List.mem_cons.mp h with rfl | h2
    · by_cases hc : x.2.order ≤ z.2.order <;> simp [insertByOrder, hc]
    · by_cases hc : x.2.order ≤ y.2.order <;> simp [insertByOrder, hc, h2, ih h2]

/-- Sorting preserves the members of the registry. -/
theorem mem_sortByOrder_of_mem (z : String × FieldInfo)
    (l : List (String × FieldInfo)) (h : z ∈ l) : z ∈ sortByOrder l := by
  induction l with
  | nil => cases h
  | cons x xs ih =>
    rcases List.mem_cons.mp h with rfl | h2
    · rw [sortByOrder]
      exact self_mem_insertByOrder z (sortByOrder xs)
    · rw [sortByOrder]
      exact mem_insertByOrder_of_mem x z (sortByOrder xs) (ih h2)

/-- A row whose map lacks one of the columns' labels panics the cell
renderer. -/
theorem renderCells_eq_none (proc : List (String × String))
    (fields : List (String × FieldInfo)) (name : String) (fi : FieldInfo)
    (hmem : (name, fi) ∈ fields) (hmiss : lookupA proc name = none) :
    renderCells proc fields = none := by
  induction fields with
  | nil => cases hmem
  | cons nf rest ih =>
    rcases List.mem_cons.mp hmem with rfl | h2
    · simp [renderCells, hmiss]
    · obtain ⟨n1, f1⟩ := nf
      cases hl : lookupA proc n1 with
      | none => simp [renderCells, hl]
      | some v => simp [renderCells, hl, ih h2]

/-- A panicking row panics the whole line renderer. -/
theorem renderLines_eq_none (fields : List (String × FieldInfo))
    (procs : List (List (String × String))) (proc : List (String × String))
    (hp : proc ∈ procs) (hc : renderCells proc fields = none) :
    renderLines fields procs = none := by
  induction procs with
  | nil => cases hp
  | cons p ps ih =>
    rcases List.mem_cons.mp hp with rfl | h2
    · simp [renderLines, hc]
    · cases hcp : renderCells p fields with
      | none => simp [renderLines, hcp]
      | some cells => simp [renderLines, hcp, ih h2]

/-- C4 (amended): when some row lacks a pair for a collected column's
label, the renderer does not emit a filler line for that row — it panics
(`row.get(name).unwrap()`), so the whole tabular output fails.  The `-`
filler appears only for pairs that are present with an absent (null)
value. -/
theorem c4_missing_label_panics (rows : List Value)
    (fields : List (String × FieldInfo)) (procs : List (List (String × String)))
    (proc : List (String × String)) (name : String) (fi : FieldInfo)
    (h : collectFields rows = some (fields, procs)) (hp : proc ∈ procs)
    (hf : (name, fi) ∈ fields) (hmiss : lookupA proc name = none) :
    outputTable rows = none := by
  have hmem2 := mem_sortByOrder_of_mem (name, fi) fields hf
  have hcells := renderCells_eq_none proc (sortByOrder fields) name fi hmem2 hmiss
  have hlines := renderLines_eq_none (sortByOrder fields) procs proc hp hcells
  simp [outputTable, h, hlines]

/-- Witness for C4 at the concrete collection whose second row lacks `B`. -/
theorem c4_witness : outputTable missingLabelRows = none :=
  c4_missing_label_panics missingLabelRows
    [("A", ⟨0, 1⟩), ("B", ⟨1, 1⟩)]
    [[("A", "x"), ("B", "y")], [("A", "z")]]
    [("A", "z")] "B" ⟨1, 1⟩
    (by decide) (by decide) (by decide) (by decide)
